import Mathlib

/-!
Verification of the demetsiiify web service (job status API, import endpoint,
SSE status stream, and IIIF Image API parameter handling), shallowly embedded
from `demetsiiify/blueprints.py` and `demetsiiify/__init__.py`.

JSON status objects are modelled as ordered association lists over a small
value type; the rq job stores are modelled as explicit lists of job records.
-/

namespace Demetsiiify

/-- Flat JSON-like values occurring in job status objects. -/
inductive JVal where
  | null
  | s (str : String)
  | n (nat : Nat)
  deriving Repr, DecidableEq

/-- A Python dict with string keys, as an ordered association list
(keys unique by construction through `dictSet`). -/
abbrev Dict := List (String × JVal)

/-- Python `d[k]` / `d.get(k)`: first binding of the key. -/
def dictGet (d : Dict) (k : String) : Option JVal :=
  match d with
  | [] => none
  | (k', v) :: rest => if k' = k then some v else dictGet rest k

/-- Python `d[k] = v`: replace the binding in place if present, else append. -/
def dictSet (d : Dict) (k : String) (v : JVal) : Dict :=
  match d with
  | [] => [(k, v)]
  | (k', v') :: rest => if k' = k then (k', v) :: rest else (k', v') :: dictSet rest k v

/-- Python `d.update(m)`: set every binding of `m` in order. -/
def dictUpdate (d : Dict) (m : Dict) : Dict :=
  m.foldl (fun acc kv => dictSet acc kv.1 kv.2) d

/-- An rq job record, as far as `_get_job_status` inspects it. -/
structure Job where
  id : String
  status : String
  meta : Dict
  exc_info : Option String
  result : Option JVal
  deriving Repr, DecidableEq

/-- The job-store state visible to the blueprints: the active queue's job
store, the failure store, and the queue's ordered list of job ids
(`queue.get_job_ids()`). -/
structure QueueState where
  jobs : List Job
  failed : List Job
  job_ids : List String
  deriving Repr, DecidableEq

/-- Model of `queue.fetch_job(job_id)`: look the id up in a store. -/
def fetch_job (jobs : List Job) (tid : String) : Option Job :=
  jobs.find? (fun j => j.id == tid)

/-- Model of rq `fetch_job` called with Python `None` as the job id (the
lookup key is then derived from a fresh uuid, never a stored job's id): it
finds nothing, in any store. -/
def fetch_job_none (_jobs : List Job) : Option Job := none

/-- The fetch sequence of `_get_job_status`: `job = queue.fetch_job(job)`
rebinds the local `job`, so when the active store misses, the fallback
`failed_queue.fetch_job(job)` receives the rebound `None` — not the
requested id — and therefore never finds a job. -/
def fetch_both (st : QueueState) (tid : String) : Option Job :=
  match fetch_job st.jobs tid with
  | some j => some j
  | none => fetch_job_none st.failed

/-- Value for `out['traceback'] = job.exc_info` (`None` becomes JSON null). -/
def excVal : Option String → JVal
  | none => JVal.null
  | some s => JVal.s s

/-- The queued-position value of `_get_job_status`:
`job_ids.index(job.id) if job.id in job_ids else None`. -/
def positionVal (st : QueueState) (jid : String) : JVal :=
  if st.job_ids.contains jid then JVal.n (st.job_ids.indexOf jid) else JVal.null

/-- Body of `_get_job_status` once a job object is in hand: build
`{'id': ..., 'status': ...}`, merge `job.meta` unless the job failed, then
add the state-specific field. -/
def jobStatusDict (st : QueueState) (job : Job) : Dict :=
  let out : Dict := [("id", JVal.s job.id), ("status", JVal.s job.status)]
  let out := if job.status ≠ "failed" then dictUpdate out job.meta else out
  if job.status = "failed" then dictSet out "traceback" (excVal job.exc_info)
  else if job.status = "queued" then dictSet out "position" (positionVal st job.id)
  else if job.status = "finished" then
    dictSet out "result" (match job.result with | none => JVal.null | some v => v)
  else out

/-- Model of `_get_job_status(job_id)` for a string argument: fetch from the active
store, fall back to the failure store, `None` when both misses. -/
def get_job_status (st : QueueState) (tid : String) : Option Dict :=
  match fetch_both st tid with
  | none => none
  | some job => some (jobStatusDict st job)

/-- Responses of the task-status endpoint. -/
inductive ApiResp where
  | json (code : Nat) (body : Dict)
  | notFound
  deriving Repr, DecidableEq

/-- Model of `api_task_status`: jsonify the status when truthy (a non-empty dict),
otherwise `abort(404)`. -/
def api_task_status (st : QueueState) (tid : String) : ApiResp :=
  match get_job_status st tid with
  | some d => if d ≠ [] then ApiResp.json 200 d else ApiResp.notFound
  | none => ApiResp.notFound

-- Dict lemmas

theorem dictSet_ne_nil (d : Dict) (k : String) (v : JVal) : dictSet d k v ≠ [] := by
  cases d with
  | nil => simp [dictSet]
  | cons kv rest =>
    obtain ⟨k', v'⟩ := kv
    simp only [dictSet]
    split <;> simp

theorem dictUpdate_ne_nil (d : Dict) (m : Dict) (h : d ≠ []) : dictUpdate d m ≠ [] := by
  induction m generalizing d with
  | nil => simpa [dictUpdate]
  | cons kv rest ih =>
    simp only [dictUpdate, List.foldl_cons] at *
    exact ih _ (dictSet_ne_nil d kv.1 kv.2)

theorem dictGet_dictSet_self (d : Dict) (k : String) (v : JVal) :
    dictGet (dictSet d k v) k = some v := by
  induction d with
  | nil => simp [dictSet, dictGet]
  | cons kv rest ih =>
    obtain ⟨k', v'⟩ := kv
    by_cases hk : k' = k
    · simp [dictSet, dictGet, hk]
    · simp [dictSet, dictGet, hk, ih]

theorem dictGet_dictSet_ne (d : Dict) (k k' : String) (v : JVal) (h : k ≠ k') :
    dictGet (dictSet d k v) k' = dictGet d k' := by
  induction d with
  | nil => simp [dictSet, dictGet, h]
  | cons kv rest ih =>
    obtain ⟨k₀, v₀⟩ := kv
    by_cases hk : k₀ = k
    · subst hk
      simp [dictSet, dictGet, h]
    · simp [dictSet, dictGet, hk, ih]

theorem dictGet_dictUpdate_of_not_mem (d : Dict) (m : Dict) (k : String)
    (h : dictGet m k = none) : dictGet (dictUpdate d m) k = dictGet d k := by
  induction m generalizing d with
  | nil => simp [dictUpdate]
  | cons kv rest ih =>
    obtain ⟨k₀, v₀⟩ := kv
    simp only [dictGet] at h
    by_cases hk : k₀ = k
    · simp [hk] at h
    · simp only [if_neg hk] at h
      simp only [dictUpdate, List.foldl_cons] at *
      rw [ih _ h, dictGet_dictSet_ne _ _ _ _ hk]

theorem jobStatusDict_ne_nil (st : QueueState) (job : Job) :
    jobStatusDict st job ≠ [] := by
  unfold jobStatusDict
  by_cases hf : job.status = "failed"
  · simp only [hf]
    simp [dictSet_ne_nil]
  · simp only [hf, ne_eq, not_false_iff, if_true, if_false, ite_true, ite_false]
    by_cases hq : job.status = "queued"
    · simp [hf, hq, dictSet_ne_nil]
    · by_cases hfin : job.status = "finished"
      · simp [hf, hq, hfin, dictSet_ne_nil]
      · simp [hf, hq, hfin]
        exact dictUpdate_ne_nil _ _ (by simp)

/-- A job present only in the failure store. -/
def c1FailedJob : Job :=
  { id := "j9", status := "failed", meta := [],
    exc_info := some "Traceback: boom", result := none }

def c1State : QueueState := { jobs := [], failed := [c1FailedJob], job_ids := [] }

/-- C1: code bug — a job id known only to the failure store is answered 404,
although the spec says 404 only when the id is unknown to both stores:
`_get_job_status` rebinds `job = queue.fetch_job(job)` and then calls
`failed_queue.fetch_job(job)` with the rebound `None` instead of the id, so
the failure-store fallback never finds a job (contrast `sse_stream`, which
passes `task_id` to both fetches). Evaluated here at a concrete state whose
failure store knows the id while the active store misses. -/
theorem C1_failure_store_404 :
    fetch_job c1State.failed "j9" = some c1FailedJob
    ∧ fetch_job c1State.jobs "j9" = none
    ∧ api_task_status c1State "j9" = ApiResp.notFound := by
  decide

theorem jobStatusDict_of_failed (st : QueueState) (job : Job)
    (h : job.status = "failed") :
    jobStatusDict st job
      = [("id", JVal.s job.id), ("status", JVal.s job.status),
         ("traceback", excVal job.exc_info)] := by
  have h1 : ¬job.status ≠ "failed" := by simp [h]
  unfold jobStatusDict
  simp only []
  rw [if_neg h1, if_pos h]
  simp [dictSet]

theorem jobStatusDict_of_queued (st : QueueState) (job : Job)
    (h : job.status = "queued") :
    jobStatusDict st job
      = dictSet (dictUpdate [("id", JVal.s job.id), ("status", JVal.s job.status)]
          job.meta) "position" (positionVal st job.id) := by
  have h1 : job.status ≠ "failed" := by rw [h]; decide
  unfold jobStatusDict
  simp only []
  rw [if_pos h1, if_neg h1, if_pos h]

theorem jobStatusDict_of_finished (st : QueueState) (job : Job)
    (h : job.status = "finished") :
    jobStatusDict st job
      = dictSet (dictUpdate [("id", JVal.s job.id), ("status", JVal.s job.status)]
          job.meta) "result"
          (match job.result with | none => JVal.null | some v => v) := by
  have h1 : job.status ≠ "failed" := by rw [h]; decide
  have h2 : job.status ≠ "queued" := by rw [h]; decide
  unfold jobStatusDict
  simp only []
  rw [if_pos h1, if_neg h1, if_neg h2, if_pos h]

theorem jobStatusDict_of_other (st : QueueState) (job : Job)
    (h1 : job.status ≠ "failed") (h2 : job.status ≠ "queued")
    (h3 : job.status ≠ "finished") :
    jobStatusDict st job
      = dictUpdate [("id", JVal.s job.id), ("status", JVal.s job.status)]
          job.meta := by
  unfold jobStatusDict
  simp only []
  rw [if_pos h1, if_neg h1, if_neg h2, if_neg h3]

/-- C4: a queued job's status object carries `position`, the zero-based index
of its id in the queue's ordered id list (null when the id is no longer in the
list); non-queued jobs carry no `position` field (their meta never holds one,
as only `_get_basic_info` and `_exception_handler` write job meta). -/
theorem C4_queue_position (st : QueueState) (job : Job)
    (hmeta : dictGet job.meta "position" = none) :
    (job.status = "queued" →
      ((job.id ∈ st.job_ids →
          dictGet (jobStatusDict st job) "position"
            = some (JVal.n (st.job_ids.indexOf job.id)))
       ∧ (job.id ∉ st.job_ids →
          dictGet (jobStatusDict st job) "position" = some JVal.null)))
    ∧ (job.status ≠ "queued" → dictGet (jobStatusDict st job) "position" = none) := by
  constructor
  · intro hq
    have hpos : dictGet (jobStatusDict st job) "position"
        = some (positionVal st job.id) := by
      rw [jobStatusDict_of_queued st job hq]
      exact dictGet_dictSet_self _ _ _
    constructor
    · intro hmem
      rw [hpos]
      simp [positionVal, hmem]
    · intro hmem
      rw [hpos]
      simp [positionVal, hmem]
  · intro hq
    have hbase : dictGet (dictUpdate
        [("id", JVal.s job.id), ("status", JVal.s job.status)] job.meta)
        "position" = none := by
      rw [dictGet_dictUpdate_of_not_mem _ _ _ hmeta]
      simp [dictGet]
    by_cases hf : job.status = "failed"
    · rw [jobStatusDict_of_failed st job hf]
      simp [dictGet]
    · by_cases hfin : job.status = "finished"
      · rw [jobStatusDict_of_finished st job hfin]
        rw [dictGet_dictSet_ne _ _ _ _ (by decide)]
        exact hbase
      · rw [jobStatusDict_of_other st job hf hq hfin]
        exact hbase

/-- Witness for C4 at a concrete queued job and a concrete started job. -/
theorem C4_queue_position_witness :
    dictGet (jobStatusDict { jobs := [], failed := [], job_ids := ["a", "q1"] }
        { id := "q1", status := "queued", meta := [], exc_info := none,
          result := none }) "position" = some (JVal.n 1)
    ∧ dictGet (jobStatusDict { jobs := [], failed := [], job_ids := ["a"] }
        { id := "s1", status := "started", meta := [], exc_info := none,
          result := none }) "position" = none := by
  constructor
  · exact ((C4_queue_position { jobs := [], failed := [], job_ids := ["a", "q1"] }
      { id := "q1", status := "queued", meta := [], exc_info := none,
        result := none } (by decide)).1 rfl).1 (by decide)
  · exact (C4_queue_position { jobs := [], failed := [], job_ids := ["a"] }
      { id := "s1", status := "started", meta := [], exc_info := none,
        result := none } (by decide)).2 (by decide)

/-- Model of `_exception_handler` from `demetsiiify/__init__.py`: build the
fully-qualified type name (falling back to the bare class name when the
exception value has no `__module__`) and store it with the primary message
in the job's meta. -/
def exception_handler (excModule : Option String) (excClassName : String)
    (excMessage : JVal) (job : Job) : Job :=
  let typename := match excModule with
    | some m => m ++ "." ++ excClassName
    | none => excClassName
  { job with meta := [("type", JVal.s typename), ("message", excMessage)] }

/-- A failed job exactly as the worker leaves it: meta written by
`_exception_handler`, `exc_info` written by the queueing substrate. Its
hash stays reachable through the active queue's fetch (rq keeps the job
hash under its original origin). -/
def c2FailedJob : Job :=
  { id := "j2", status := "failed",
    meta := [("type", JVal.s "builtins.ValueError"), ("message", JVal.s "boom")],
    exc_info := some "Traceback: ValueError: boom",
    result := none }

def c2State : QueueState := { jobs := [c2FailedJob], failed := [], job_ids := [] }

/-- C2 counterexample: for a concrete failed job whose meta carries the
captured type and message, the status JSON contains only id, status and
traceback — the `type` and `message` fields are absent, because
`_get_job_status` merges `job.meta` only when the status is not `failed`. -/
theorem C2_counterexample :
    get_job_status c2State "j2"
      = some [("id", JVal.s "j2"), ("status", JVal.s "failed"),
              ("traceback", JVal.s "Traceback: ValueError: boom")]
    ∧ (get_job_status c2State "j2").map (fun d => (dictGet d "type").isSome)
        = some false
    ∧ (get_job_status c2State "j2").map (fun d => (dictGet d "message").isSome)
        = some false := by
  decide

/-- C2 amended: the failure descriptor (fully-qualified type name and primary
message) is attached to the job record's meta by the exception handler, but
the status JSON returned for a failed job consists of id, status and
traceback only; the type and message fields never appear in it. -/
theorem C2_failed_status_fields (excModule : Option String) (excClassName : String)
    (excMessage : JVal) (j : Job) (st : QueueState) (tid : String) (job : Job)
    (hfetch : fetch_both st tid = some job) (hst : job.status = "failed") :
    (dictGet (exception_handler excModule excClassName excMessage j).meta "type"
        = some (JVal.s (match excModule with
          | some m => m ++ "." ++ excClassName
          | none => excClassName))
     ∧ dictGet (exception_handler excModule excClassName excMessage j).meta "message"
        = some excMessage)
    ∧ get_job_status st tid
        = some [("id", JVal.s job.id), ("status", JVal.s job.status),
                ("traceback", excVal job.exc_info)]
    ∧ (∀ d, get_job_status st tid = some d →
        dictGet d "type" = none ∧ dictGet d "message" = none) := by
  have hdict : get_job_status st tid
      = some [("id", JVal.s job.id), ("status", JVal.s job.status),
              ("traceback", excVal job.exc_info)] := by
    unfold get_job_status
    rw [hfetch]
    simp only []
    rw [jobStatusDict_of_failed st job hst]
  refine ⟨⟨?_, ?_⟩, hdict, ?_⟩
  · cases excModule <;> simp [exception_handler, dictGet]
  · cases excModule <;> simp [exception_handler, dictGet]
  · intro d hd
    rw [hdict] at hd
    simp only [Option.some.injEq] at hd
    rw [← hd]
    simp [dictGet]

/-- Witness for the amended C2 at the concrete failed job. -/
theorem C2_failed_status_fields_witness :
    fetch_both c2State "j2" = some c2FailedJob
    ∧ get_job_status c2State "j2"
        = some [("id", JVal.s "j2"), ("status", JVal.s "failed"),
                ("traceback", JVal.s "Traceback: ValueError: boom")] := by
  refine ⟨by decide, ?_⟩
  exact (C2_failed_status_fields (some "builtins") "ValueError" (JVal.s "boom")
    c2FailedJob c2State "j2" c2FailedJob (by decide) (by decide)).2.1

-- SSE status stream (`sse_stream` / `gen` in blueprints.py)

/-- Python `s.split(sep)` for a single-character separator. -/
def splitOnChar (sep : Char) : List Char → List (List Char)
  | [] => [[]]
  | c :: rest =>
    if c = sep then [] :: splitOnChar sep rest
    else
      match splitOnChar sep rest with
      | [] => [[c]]
      | x :: xs => (c :: x) :: xs

/-- Model of `msg['channel'].decode('utf8').split(':')[-1]`: the last colon-separated
field of a keyspace-notification channel name. -/
def lastField (s : String) : String :=
  String.mk ((splitOnChar ':' s.toList).getLastD [])

/-- Python structural equality of two dicts: same keys, equal values. -/
def pyDictEq (a b : Dict) : Bool :=
  a.all (fun kv => decide (dictGet b kv.1 = some kv.2))
    && b.all (fun kv => decide (dictGet a kv.1 = some kv.2))

/-- Python `==` between the recomputed status and `last_status`, either of
which may be `None`. -/
def pyEq : Option Dict → Option Dict → Bool
  | none, none => true
  | some a, some b => pyDictEq a b
  | _, _ => false

/-- One keyspace notification, paired with the status `_get_job_status`
recomputes for the watched job at the moment the notification is handled
(`none` when the job has vanished from both stores). -/
abbrev StreamMsg := String × Option Dict

/-- The event loop of `gen`: for each notification, skip it when it concerns
the same job id as the previous one and the last emitted status was not
`started` (dereferencing `last_status`, which crashes the generator when that
is still `None` or lacks a `status` key); otherwise recompute the status and
emit it unless it equals the last emitted one. Returns the list of emitted
status events. -/
def genEvents : List StreamMsg → Option Dict → Option String → List (Option Dict)
  | [], _, _ => []
  | (chan, recomputed) :: rest, lastStatus, lastId =>
    let curId := lastField chan
    let skip : Option Bool :=
      if lastId ≠ some curId then some false
      else match lastStatus with
        | none => none
        | some ls => match dictGet ls "status" with
          | none => none
          | some v => some (v ≠ JVal.s "started")
    match skip with
    | none => []
    | some true => genEvents rest lastStatus lastId
    | some false =>
      if pyEq recomputed lastStatus then genEvents rest lastStatus (some curId)
      else recomputed :: genEvents rest recomputed (some curId)

/-- The full stream: `last_status` and `last_id` both start as `None`. -/
def sse_stream_events (msgs : List StreamMsg) : List (Option Dict) :=
  genEvents msgs none none

/-- Adjacent emitted events always differ under Python equality. -/
def NoConsecutiveDup (l : List (Option Dict)) : Prop :=
  List.Chain' (fun a b => pyEq b a = false) l

theorem genEvents_chain (msgs : List StreamMsg) :
    ∀ (ls : Option Dict) (li : Option String),
      List.Chain' (fun a b => pyEq b a = false) (ls :: genEvents msgs ls li) := by
  induction msgs with
  | nil =>
    intro ls li
    simp [genEvents]
  | cons m rest ih =>
    intro ls li
    obtain ⟨chan, recomputed⟩ := m
    simp only [genEvents]
    cases hskip : (if li ≠ some (lastField chan) then some false
      else match ls with
        | none => none
        | some l => match dictGet l "status" with
          | none => none
          | some v => some (v ≠ JVal.s "started")) with
    | none => exact List.chain'_singleton ls
    | some b =>
      cases b with
      | true => exact ih ls li
      | false =>
        by_cases heq : pyEq recomputed ls = true
        · simp only [heq, if_true, ite_true]
          exact ih ls (some (lastField chan))
        · have heq' : pyEq recomputed ls = false := by
            cases h : pyEq recomputed ls
            · rfl
            · exact absurd h heq
          rw [if_neg (by simp [heq'])]
          rw [List.chain'_cons]
          exact ⟨heq', ih recomputed (some (lastField chan))⟩

/-- C5: the live stream never emits two consecutive structurally-equal status
events — every emitted event differs (Python structural equality) from the
previously emitted one. -/
theorem C5_no_duplicate_events (msgs : List StreamMsg) :
    NoConsecutiveDup (sse_stream_events msgs) := by
  unfold NoConsecutiveDup sse_stream_events
  exact (genEvents_chain msgs none none).tail

def c6FinishedStatus : Dict :=
  [("id", JVal.s "t1"), ("status", JVal.s "finished"), ("result", JVal.s "m1")]

def c6Trace : List StreamMsg :=
  [("__keyspace@0__:rq:job:t1", some c6FinishedStatus),
   ("__keyspace@0__:rq:job:other", none)]

/-- C6 counterexample: after the terminal (`finished`) status has been
emitted, a further notification for another job's key is still processed and
produces a second event (here the job has meanwhile expired from the stores,
so `data: null` is emitted): the generator does not terminate once the
terminal status is out. -/
theorem C6_counterexample :
    dictGet c6FinishedStatus "status" = some (JVal.s "finished")
    ∧ sse_stream_events c6Trace = [some c6FinishedStatus, none] := by
  constructor
  · decide
  · decide

/-- C6 amended: the generator never closes on its own after the terminal
status is emitted; it keeps consuming notifications, and any later
notification for a different job id whose recomputed status differs from the
last emitted one yields a further event, with the loop continuing afterwards.
It stops only when the client disconnects (end of the notification trace) or
when the skip test dereferences a `None` last status. -/
theorem C6_stream_keeps_listening (chan1 chan2 : String) (d1 : Dict)
    (recomputed2 : Option Dict) (rest : List StreamMsg)
    (_hterm : dictGet d1 "status" = some (JVal.s "finished"))
    (hid : lastField chan2 ≠ lastField chan1)
    (hne : pyEq recomputed2 (some d1) = false) :
    sse_stream_events ((chan1, some d1) :: (chan2, recomputed2) :: rest)
      = some d1 :: recomputed2
          :: genEvents rest recomputed2 (some (lastField chan2)) := by
  unfold sse_stream_events
  simp only [genEvents]
  have h1 : (none : Option String) ≠ some (lastField chan1) := by simp
  rw [if_pos h1]
  have hne1 : pyEq (some d1) none = false := by simp [pyEq]
  simp only [hne1, if_false, ite_false, Bool.false_eq_true]
  have h2 : some (lastField chan1) ≠ some (lastField chan2) := by
    simpa using hid.symm
  rw [if_pos h2]
  simp only [hne, if_false, ite_false, Bool.false_eq_true]

/-- Witness for the amended C6 on the concrete trace. -/
theorem C6_stream_keeps_listening_witness :
    sse_stream_events c6Trace = [some c6FinishedStatus, none] := by
  have h := C6_stream_keeps_listening "__keyspace@0__:rq:job:t1"
    "__keyspace@0__:rq:job:other" c6FinishedStatus none []
    (by decide) (by decide) (by decide)
  simpa [c6Trace, genEvents] using h

-- POST /api/import (`api_import`, `_extract_mets_from_dfgviewer`)

/-- Value of a hexadecimal digit, `none` for other characters. -/
def hexVal (c : Char) : Option Nat :=
  if '0' ≤ c ∧ c ≤ '9' then some (c.toNat - ('0').toNat)
  else if 'a' ≤ c ∧ c ≤ 'f' then some (c.toNat - ('a').toNat + 10)
  else if 'A' ≤ c ∧ c ≤ 'F' then some (c.toNat - ('A').toNat + 10)
  else none

/-- Percent-decoding as in `urllib.parse.unquote`, modelled for single-byte escapes: `%XX` with two
hex digits decodes to the character of that code point, malformed escapes
are kept verbatim. -/
def unquoteChars : List Char → List Char
  | [] => []
  | '%' :: a :: b :: rest =>
    match hexVal a, hexVal b with
    | some ha, some hb => Char.ofNat (ha * 16 + hb) :: unquoteChars rest
    | _, _ => '%' :: unquoteChars (a :: b :: rest)
  | c :: rest => c :: unquoteChars rest

/-- Does the literal `lit` occur at the head of `l`? -/
def litAt : List Char → List Char → Bool
  | [], _ => true
  | _ :: _, [] => false
  | p :: ps, c :: cs => p = c && litAt ps cs

/-- Leftmost match of the regex `lit` `K+` where `K` is the character class
decided by `keep`: scan for the first position where the literal occurs
followed by at least one `keep` character, and return the greedy run. -/
def scanFor (lit : List Char) (keep : Char → Bool) : List Char → Option (List Char)
  | [] => none
  | l@(_ :: rest) =>
    if litAt lit l then
      let run := (l.drop lit.length).takeWhile keep
      if run.isEmpty then scanFor lit keep rest
      else some run
    else scanFor lit keep rest

def setMetsLit : List Char := ("set[mets]=http").toList

def txDlfLit : List Char := ("tx_dlf[id]=http").toList

/-- Model of `_extract_mets_from_dfgviewer`: unquote the URL, then take the first
`set\[mets\]=(http[^&]+)` capture; if that pattern is absent, take the first
`tx_dlf\[id\]=(http.+)` capture; `None` when neither matches. -/
def extract_mets_from_dfgviewer (url : String) : Option String :=
  let u := unquoteChars url.toList
  match scanFor setMetsLit (fun c => c != '&') u with
  | some run => some (String.mk (("http").toList ++ run))
  | none =>
    match scanFor txDlfLit (fun c => c != '\n') u with
    | some run => some (String.mk (("http").toList ++ run))
    | none => none

/-- Model of `re.match(r'https?://dfg-viewer.de/show/.*?', url)`: the unescaped dot
matches any non-newline character and the lazy tail matches the empty
string, so this tests a prefix shape. -/
def matchDfgViewer (url : String) : Bool :=
  let l := url.toList
  let after : Option (List Char) :=
    if litAt (("https://dfg-viewer").toList) l then
      some (l.drop (("https://dfg-viewer").toList.length))
    else if litAt (("http://dfg-viewer").toList) l then
      some (l.drop (("http://dfg-viewer").toList.length))
    else none
  match after with
  | some (c :: r) => c != '\n' && litAt (("de/show/").toList) r
  | _ => false

/-- Model of `url_for('api.api_task_status', task_id=...)`: the path of the status
endpoint for a job. -/
def status_url (task_id : String) : String := "/api/tasks/" ++ task_id

/-- The METS URL the endpoint works with: DFG-Viewer URLs are rewritten by
`_extract_mets_from_dfgviewer`, anything else is used as given. -/
def effectiveMetsUrl (url : String) : Option String :=
  if matchDfgViewer url then extract_mets_from_dfgviewer url else some url

/-- Observable outcome of a `POST /api/import` request. `probedUrl` is the
argument passed to `requests.head` (`none` when it was Python `None`, which
raises); `enqueued` records the id and METS URL of the job handed to
`queue.enqueue`, if any. -/
structure ImportOutcome where
  probedUrl : Option String
  enqueued : Option (String × String)
  status : Nat
  location : Option String
  body : Option Dict
  finalState : QueueState
  deriving Repr

/-- Effect of `queue.enqueue(import_mets_job, mets_url, meta=job_meta)`: a
fresh job in state `queued` with the submission metadata, appended to the
active store and to the queue's ordered id list. -/
def newQueuedJob (jid : String) (jobMeta : Dict) : Job :=
  { id := jid, status := "queued", meta := jobMeta,
    exc_info := none, result := none }

def enqueueJob (st : QueueState) (jid : String) (jobMeta : Dict) : QueueState :=
  { st with
    jobs := st.jobs ++ [newQueuedJob jid jobMeta],
    job_ids := st.job_ids ++ [jid] }

/-- The 400 answer of `api_import`. -/
def importRefused (st : QueueState) (probed : Option String) : ImportOutcome :=
  { probedUrl := probed, enqueued := none, status := 400, location := none,
    body := some [("message",
      JVal.s "There is no METS available at the given URL.")],
    finalState := st }

/-- Continuation of `api_import` after the probe test: on a truthy probe
response, `job_meta = _get_basic_info(mets_url)` runs next — it fetches and
parses the METS document, so it can raise even though the HEAD probe
succeeded (e.g. `ET.parse` on a reachable URL serving non-XML); a raise
there is surfaced by the framework's error handling as a 500 with no job
enqueued (its body is not modelled). Only when it returns is the job
enqueued and answered 202 with the job's status body and a Location header
for the status endpoint. `basicInfo u = none` models the raise, `some m` a
returned metadata dict. -/
def importAccepted (probe : String → Option Bool)
    (basicInfo : String → Option Dict)
    (freshId : String) (st : QueueState) (u : String) : ImportOutcome :=
  match probe u with
  | some true =>
    match basicInfo u with
    | none =>
      { probedUrl := some u, enqueued := none, status := 500,
        location := none, body := none, finalState := st }
    | some jobMeta =>
      let st' := enqueueJob st freshId jobMeta
      { probedUrl := some u, enqueued := some (freshId, u), status := 202,
        location := some (status_url freshId),
        body := get_job_status st' freshId, finalState := st' }
  | _ => importRefused st (some u)

/-- Model of `api_import`: rewrite DFG-Viewer URLs, probe the METS URL with
`requests.head` (the bare `except` swallows a raised exception, leaving
`resp = None`; a falsy response object also fails the `if not resp` test),
answer 400 without enqueueing when the probe fails, then run the fallible
`_get_basic_info` and enqueue. The probe and `_get_basic_info` bodies are
abstract: `probe u = none` models a raised HEAD request, `some b` a
response whose truthiness is `b`; `basicInfo u = none` models a raise while
fetching or parsing the METS document. -/
def api_import (probe : String → Option Bool) (basicInfo : String → Option Dict)
    (freshId : String) (st : QueueState) (url : String) : ImportOutcome :=
  match effectiveMetsUrl url with
  | none => importRefused st none
  | some u => importAccepted probe basicInfo freshId st u

theorem api_task_status_json (st : QueueState) (tid : String) (d : Dict)
    (h : get_job_status st tid = some d) (hne : d ≠ []) :
    api_task_status st tid = ApiResp.json 200 d := by
  unfold api_task_status
  rw [h]
  simp [hne]

theorem fetch_job_append_self (jobs : List Job) (j : Job) :
    ∃ j', fetch_job (jobs ++ [j]) j.id = some j' := by
  unfold fetch_job
  rw [List.find?_append]
  cases hfind : jobs.find? (fun j' => j'.id == j.id) with
  | some j' => exact ⟨j', rfl⟩
  | none =>
    refine ⟨j, ?_⟩
    simp [List.find?]

/-- C3 counterexample: the probe succeeds on a reachable URL, yet the
promised 202-with-enqueue does not happen — `_get_basic_info` raises (for
instance `ET.parse` on a URL serving non-XML) and the request is answered
500 with no job enqueued. -/
theorem C3_counterexample :
    (api_import (fun _ => some true) (fun _ => none) "job1"
      { jobs := [], failed := [], job_ids := [] }
      "http://example.org/notxml").status = 500
    ∧ (api_import (fun _ => some true) (fun _ => none) "job1"
      { jobs := [], failed := [], job_ids := [] }
      "http://example.org/notxml").enqueued = none := by
  decide

/-- C3 amended: if the reachability probe of the effective source URL fails
— the HEAD request raises, its response is falsy, or there is no URL to
probe — `POST /api/import` answers 400 and enqueues nothing; if the probe
succeeds but the subsequent `_get_basic_info` raises, it answers 500 and
enqueues nothing; only when the probe and the basic-info extraction both
succeed is a job enqueued, answered 202 with that job's status body and a
Location header for the job's status endpoint, which then serves the same
body. -/
theorem C3_import_probe (probe : String → Option Bool)
    (basicInfo : String → Option Dict) (freshId : String) (st : QueueState)
    (url : String) :
    ((∀ u, effectiveMetsUrl url = some u → probe u ≠ some true) →
      (api_import probe basicInfo freshId st url).status = 400
      ∧ (api_import probe basicInfo freshId st url).enqueued = none
      ∧ (api_import probe basicInfo freshId st url).finalState = st)
    ∧ (∀ u, effectiveMetsUrl url = some u → probe u = some true →
        basicInfo u = none →
      (api_import probe basicInfo freshId st url).status = 500
      ∧ (api_import probe basicInfo freshId st url).enqueued = none
      ∧ (api_import probe basicInfo freshId st url).finalState = st)
    ∧ (∀ u m, effectiveMetsUrl url = some u → probe u = some true →
        basicInfo u = some m →
      (api_import probe basicInfo freshId st url).status = 202
      ∧ (api_import probe basicInfo freshId st url).enqueued = some (freshId, u)
      ∧ (api_import probe basicInfo freshId st url).location
          = some (status_url freshId)
      ∧ (api_import probe basicInfo freshId st url).finalState
          = enqueueJob st freshId m
      ∧ ∃ d, (api_import probe basicInfo freshId st url).body = some d
          ∧ api_task_status
              (api_import probe basicInfo freshId st url).finalState freshId
              = ApiResp.json 200 d) := by
  refine ⟨?_, ?_, ?_⟩
  · intro hfail
    cases heff : effectiveMetsUrl url with
    | none =>
      have hred : api_import probe basicInfo freshId st url
          = importRefused st none := by
        unfold api_import
        rw [heff]
      rw [hred]
      exact ⟨rfl, rfl, rfl⟩
    | some u =>
      have hfail' := hfail u heff
      have hred : api_import probe basicInfo freshId st url
          = importAccepted probe basicInfo freshId st u := by
        unfold api_import
        rw [heff]
      rw [hred]
      unfold importAccepted
      cases hp : probe u with
      | none => exact ⟨rfl, rfl, rfl⟩
      | some b =>
        cases b with
        | false => exact ⟨rfl, rfl, rfl⟩
        | true => exact absurd hp hfail'
  · intro u heff hp hbi
    have hred : api_import probe basicInfo freshId st url
        = importAccepted probe basicInfo freshId st u := by
      unfold api_import
      rw [heff]
    rw [hred]
    unfold importAccepted
    rw [hp, hbi]
    exact ⟨rfl, rfl, rfl⟩
  · intro u m heff hp hbi
    have hred : api_import probe basicInfo freshId st url
        = importAccepted probe basicInfo freshId st u := by
      unfold api_import
      rw [heff]
    rw [hred]
    unfold importAccepted
    rw [hp, hbi]
    refine ⟨rfl, rfl, rfl, rfl, ?_⟩
    obtain ⟨j', hj'⟩ := fetch_job_append_self st.jobs (newQueuedJob freshId m)
    have hgjs : get_job_status (enqueueJob st freshId m) freshId
        = some (jobStatusDict (enqueueJob st freshId m) j') := by
      unfold get_job_status fetch_both
      simp only [enqueueJob]
      rw [show (newQueuedJob freshId m).id = freshId from rfl] at hj'
      rw [hj']
    exact ⟨jobStatusDict (enqueueJob st freshId m) j', hgjs,
      api_task_status_json _ _ _ hgjs (jobStatusDict_ne_nil _ _)⟩

/-- Witness for C3, one URL per branch: full success, a basic-info raise
after a successful probe, and a probe failure. -/
theorem C3_import_probe_witness :
    effectiveMetsUrl "http://example.org/mets.xml"
        = some ("http://example.org/mets.xml")
    ∧ (api_import (fun _ => some true) (fun _ => some []) "job1"
        { jobs := [], failed := [], job_ids := [] }
        "http://example.org/mets.xml").status = 202
    ∧ (api_import (fun _ => some true) (fun _ => none) "job1"
        { jobs := [], failed := [], job_ids := [] }
        "http://example.org/mets.xml").status = 500
    ∧ (api_import (fun _ => some false) (fun _ => none) "job1"
        { jobs := [], failed := [], job_ids := [] }
        "http://example.org/mets.xml").status = 400 := by
  refine ⟨by decide, ?_, ?_, ?_⟩
  · exact ((C3_import_probe (fun _ => some true) (fun _ => some []) "job1"
      { jobs := [], failed := [], job_ids := [] }
      "http://example.org/mets.xml").2.2 "http://example.org/mets.xml" []
      (by decide) rfl rfl).1
  · exact ((C3_import_probe (fun _ => some true) (fun _ => none) "job1"
      { jobs := [], failed := [], job_ids := [] }
      "http://example.org/mets.xml").2.1 "http://example.org/mets.xml"
      (by decide) rfl rfl).1
  · exact ((C3_import_probe (fun _ => some false) (fun _ => none) "job1"
      { jobs := [], failed := [], job_ids := [] }
      "http://example.org/mets.xml").1 (by intro u hu; simp)).1

/-- C10: for a DFG-Viewer URL, the URL probed and imported is the METS URL
extracted from the unquoted query string — the `set[mets]=` capture when the
pattern matches, otherwise the `tx_dlf[id]=` capture — and when neither
pattern matches the request is answered with 400 and no job is enqueued. -/
theorem C10_dfgviewer_rewrite (probe : String → Option Bool)
    (basicInfo : String → Option Dict) (freshId : String) (st : QueueState)
    (url : String) (hmatch : matchDfgViewer url = true) :
    effectiveMetsUrl url = extract_mets_from_dfgviewer url
    ∧ (∀ run, scanFor setMetsLit (fun c => c != '&') (unquoteChars url.toList)
          = some run →
        extract_mets_from_dfgviewer url
          = some (String.mk (("http").toList ++ run)))
    ∧ (scanFor setMetsLit (fun c => c != '&') (unquoteChars url.toList) = none →
        ∀ run, scanFor txDlfLit (fun c => c != '\n') (unquoteChars url.toList)
            = some run →
          extract_mets_from_dfgviewer url
            = some (String.mk (("http").toList ++ run)))
    ∧ (extract_mets_from_dfgviewer url = none →
        (api_import probe basicInfo freshId st url).status = 400
        ∧ (api_import probe basicInfo freshId st url).enqueued = none
        ∧ (api_import probe basicInfo freshId st url).finalState = st)
    ∧ (∀ u, extract_mets_from_dfgviewer url = some u →
        (api_import probe basicInfo freshId st url).probedUrl = some u
        ∧ ∀ jid mu, (api_import probe basicInfo freshId st url).enqueued
            = some (jid, mu) → mu = u) := by
  have heff : effectiveMetsUrl url = extract_mets_from_dfgviewer url := by
    simp [effectiveMetsUrl, hmatch]
  refine ⟨heff, ?_, ?_, ?_, ?_⟩
  · intro run hrun
    unfold extract_mets_from_dfgviewer
    simp only []
    rw [hrun]
  · intro hnone run hrun
    unfold extract_mets_from_dfgviewer
    simp only []
    rw [hnone, hrun]
  · intro hnone
    unfold api_import
    rw [heff, hnone]
    exact ⟨rfl, rfl, rfl⟩
  · intro u hsome
    have hred : api_import probe basicInfo freshId st url
        = importAccepted probe basicInfo freshId st u := by
      unfold api_import
      rw [heff, hsome]
    rw [hred]
    unfold importAccepted
    cases hp : probe u with
    | none => exact ⟨rfl, fun jid mu h => by simp [importRefused] at h⟩
    | some b =>
      cases b with
      | false => exact ⟨rfl, fun jid mu h => by simp [importRefused] at h⟩
      | true =>
        cases hbi : basicInfo u with
        | none => exact ⟨rfl, fun jid mu h => by simp at h⟩
        | some m =>
          refine ⟨rfl, ?_⟩
          intro jid mu h
          simp only [Option.some.injEq, Prod.mk.injEq] at h
          exact h.2.symm

/-- Witness for C10 on a concrete DFG-Viewer URL carrying a percent-encoded
`set[mets]=` parameter. -/
theorem C10_dfgviewer_rewrite_witness :
    matchDfgViewer
      "http://dfg-viewer.de/show/?set%5Bmets%5D=http://example.org/m.xml&x=1"
      = true
    ∧ effectiveMetsUrl
        "http://dfg-viewer.de/show/?set%5Bmets%5D=http://example.org/m.xml&x=1"
      = extract_mets_from_dfgviewer
        "http://dfg-viewer.de/show/?set%5Bmets%5D=http://example.org/m.xml&x=1" := by
  refine ⟨by decide, ?_⟩
  exact (C10_dfgviewer_rewrite (fun _ => some true) (fun _ => some []) "job1"
    { jobs := [], failed := [], job_ids := [] }
    "http://dfg-viewer.de/show/?set%5Bmets%5D=http://example.org/m.xml&x=1"
    (by decide)).1

-- IIIF Image API (`get_image`)

def isDigitChar (c : Char) : Bool := ('0') ≤ c && c ≤ ('9')

def digitsVal (l : List Char) : Nat :=
  l.foldl (fun acc c => acc * 10 + (c.toNat - ('0').toNat)) 0

/-- Characters `int()` strips as whitespace, restricted to ASCII: space and
TAB through CR. -/
def isPySpace (c : Char) : Bool :=
  c.toNat = 32 || (9 ≤ c.toNat && c.toNat ≤ 13)

/-- Strip leading and trailing whitespace, as `int()` does. -/
def stripPySpace (l : List Char) : List Char :=
  ((l.dropWhile isPySpace).reverse.dropWhile isPySpace).reverse

/-- Digit groups separated by single underscores, as `int()` accepts:
nonempty, beginning and ending with a digit, every underscore between two
digits. Returns the digits with underscores removed. -/
def digitsU : List Char → Option (List Char)
  | [] => none
  | [c] => if isDigitChar c then some [c] else none
  | c :: d :: rest =>
    if isDigitChar c then
      if d = '_' then (digitsU rest).map (fun ds => c :: ds)
      else (digitsU (d :: rest)).map (fun ds => c :: ds)
    else none

/-- Sign and digit-group stage of `int()`: an optional single sign directly
followed by underscore-separated digits. -/
def pyIntCore : List Char → Option Int
  | [] => none
  | c :: rest =>
    if c = '-' then (digitsU rest).map (fun ds => -(Int.ofNat (digitsVal ds)))
    else if c = '+' then (digitsU rest).map (fun ds => Int.ofNat (digitsVal ds))
    else (digitsU (c :: rest)).map (fun ds => Int.ofNat (digitsVal ds))

/-- Python `int(s)` on ASCII strings: optional surrounding whitespace, an
optional sign, then decimal digits with single underscores between digits;
anything else raises `ValueError`. CPython additionally accepts non-ASCII
decimal digits and whitespace, which are outside this model; statements
relying on parse failure therefore confine the input to ASCII. -/
def pyInt (l : List Char) : Option Int := pyIntCore (stripPySpace l)

/-- Model of `int(parts[0])` wrapped by `f`: `none` on an empty parts list
(`IndexError`) or a failed parse (`ValueError`). -/
def headQuery (f : Int → Option Int × Option Int) :
    List (List Char) → Option (Option Int × Option Int)
  | [] => none
  | p :: _ => (pyInt p).map f

/-- Model of `query['width'], query['height'] = [int(p) for p in parts]`: `none`
unless exactly two parseable components are present. -/
def pairQuery : List (List Char) → Option (Option Int × Option Int)
  | [p, q] =>
    (match pyInt p, pyInt q with
     | some w, some h => some (some w, some h)
     | _, _ => none)
  | _ => none

/-- The size-to-query step of `get_image` on the size path segment (already
known not to be `full`/`max`): strip empty fragments from the comma split,
then branch on a trailing comma (width only), a leading comma (height only),
or both components; `none` models an uncaught `ValueError`/`IndexError`. -/
def sizeQuery (l : List Char) : Option (Option Int × Option Int) :=
  if l.getLast? = some ',' then
    headQuery (fun w => (some w, none))
      ((splitOnChar ',' l).filter (fun p => !p.isEmpty))
  else if l.head? = some ',' then
    headQuery (fun h => (none, some h))
      ((splitOnChar ',' l).filter (fun p => !p.isEmpty))
  else
    pairQuery ((splitOnChar ',' l).filter (fun p => !p.isEmpty))

/-- The resize parameters `get_image` derives from the `size` segment:
`full` and `max` carry no resize parameters, the rest goes through
`sizeQuery`. -/
def resolveSize (size : String) : Option (Option Int × Option Int) :=
  if size = "full" ∨ size = "max" then some (none, none)
  else sizeQuery size.toList

/-- A stored IIIF image, reduced to its `get_image_url` resolver (width,
height, mimetype ↦ backing URL), implemented in the models module. -/
structure IIIFImage where
  get_image_url : Option Int → Option Int → Option String → Option String

/-- Responses of `get_image`: an error status or a redirect. -/
inductive ImgResp where
  | err (code : Nat)
  | redirect (code : Nat) (url : String)
  deriving Repr, DecidableEq

/-- Resolution once the image is in hand: a failed size parse is an uncaught
exception, surfaced by the framework as a 500; a missing backing URL is 501;
otherwise a 303 redirect. -/
def urlResponse (iiif_image : IIIFImage) (fmt : Option String)
    (w h : Option Int) : ImgResp :=
  match iiif_image.get_image_url w h fmt with
  | none => ImgResp.err 501
  | some u => ImgResp.redirect 303 u

def imageResponse (iiif_image : IIIFImage) (fmt : Option String) :
    Option (Option Int × Option Int) → ImgResp
  | none => ImgResp.err 500
  | some (w, h) => urlResponse iiif_image fmt w h

def imageFound (typesMap : String → Option String) (size format : String) :
    Option IIIFImage → ImgResp
  | none => ImgResp.err 404
  | some iiif_image =>
    imageResponse iiif_image (typesMap ("." ++ format)) (resolveSize size)

/-- Model of `get_image`: parameters outside the supported subset are 501 before any
lookup; then the image is fetched (404 when absent), the format resolved
through `mimetypes.types_map` (abstract here), the size parsed, and the
backing URL answered as a 303 redirect (501 when none resolves). -/
def get_image (images : String → Option IIIFImage)
    (typesMap : String → Option String)
    (image_id region size rotation quality format : String) : ImgResp :=
  if region ≠ "full" ∨ rotation ≠ "0"
      ∨ (quality ≠ "default" ∧ quality ≠ "native") then ImgResp.err 501
  else imageFound typesMap size format (images image_id)

theorem supported_params (region rotation quality : String) (hr : region = "full")
    (hro : rotation = "0") (hq : quality = "default" ∨ quality = "native") :
    ¬(region ≠ "full" ∨ rotation ≠ "0"
      ∨ (quality ≠ "default" ∧ quality ≠ "native")) := by
  intro hcon
  rcases hcon with h | h | ⟨h1, h2⟩
  · exact h hr
  · exact h hro
  · rcases hq with h | h
    · exact h1 h
    · exact h2 h

/-- C7: any region other than `full`, rotation other than `0`, or quality
outside `{default, native}` answers 501 no matter whether the image exists;
only with all three in the supported subset is the image looked up (404 when
absent), and then the request is answered with a 303 redirect to the
resolved backing URL, or 501 when no URL resolves. -/
theorem C7_unsupported_subset (images : String → Option IIIFImage)
    (typesMap : String → Option String)
    (image_id region size rotation quality format : String) :
    ((region ≠ "full" ∨ rotation ≠ "0"
        ∨ (quality ≠ "default" ∧ quality ≠ "native")) →
      get_image images typesMap image_id region size rotation quality format
        = ImgResp.err 501)
    ∧ (region = "full" → rotation = "0" →
       (quality = "default" ∨ quality = "native") →
      (images image_id = none →
        get_image images typesMap image_id region size rotation quality format
          = ImgResp.err 404)
      ∧ (∀ img, images image_id = some img →
          ∀ w h, resolveSize size = some (w, h) →
            (img.get_image_url w h (typesMap ("." ++ format)) = none →
              get_image images typesMap image_id region size rotation quality
                format = ImgResp.err 501)
            ∧ (∀ u, img.get_image_url w h (typesMap ("." ++ format)) = some u →
              get_image images typesMap image_id region size rotation quality
                format = ImgResp.redirect 303 u))) := by
  constructor
  · intro h
    unfold get_image
    rw [if_pos h]
  · intro hr hro hq
    have hns := supported_params region rotation quality hr hro hq
    have hbase : get_image images typesMap image_id region size rotation
        quality format = imageFound typesMap size format (images image_id) := by
      unfold get_image
      rw [if_neg hns]
    constructor
    · intro hnone
      rw [hbase, hnone]
      rfl
    · intro img himg w h hsz
      have himgbase : get_image images typesMap image_id region size rotation
          quality format
          = imageResponse img (typesMap ("." ++ format)) (resolveSize size) := by
        rw [hbase, himg]
        rfl
      have hred : imageResponse img (typesMap ("." ++ format)) (some (w, h))
          = urlResponse img (typesMap ("." ++ format)) w h := rfl
      constructor
      · intro hurl
        rw [himgbase, hsz, hred]
        unfold urlResponse
        rw [hurl]
      · intro u hurl
        rw [himgbase, hsz, hred]
        unfold urlResponse
        rw [hurl]

def cImages : String → Option IIIFImage :=
  fun i =>
    if i = "img1" then
      some { get_image_url := fun _ _ _ => some ("http://backing.example/img.jpg") }
    else none

/-- Witness for C7: an unsupported region is 501 on a nonexistent image, and
a fully supported request on a stored image redirects with 303. -/
theorem C7_unsupported_subset_witness :
    get_image cImages (fun _ => some ("image/jpeg")) "nosuch" "100,100,50,50"
      "full" "0" "default" "jpg" = ImgResp.err 501
    ∧ get_image cImages (fun _ => some ("image/jpeg")) "img1" "full" "full"
      "0" "default" "jpg"
      = ImgResp.redirect 303 "http://backing.example/img.jpg" := by
  constructor
  · exact (C7_unsupported_subset cImages (fun _ => some ("image/jpeg")) "nosuch"
      "100,100,50,50" "full" "0" "default" "jpg").1 (Or.inl (by decide))
  · exact ((((C7_unsupported_subset cImages (fun _ => some ("image/jpeg")) "img1"
      "full" "full" "0" "default" "jpg").2 rfl rfl (Or.inl rfl)).2
      { get_image_url := fun _ _ _ => some ("http://backing.example/img.jpg") }
      rfl none none (by decide)).2 "http://backing.example/img.jpg" rfl)

-- Size grammar lemmas

theorem splitOnChar_not_mem (sep : Char) (l : List Char) (h : sep ∉ l) :
    splitOnChar sep l = [l] := by
  induction l with
  | nil => rfl
  | cons c rest ih =>
    simp only [List.mem_cons, not_or] at h
    obtain ⟨hc, hrest⟩ := h
    simp only [splitOnChar]
    rw [if_neg (fun hh => hc hh.symm), ih hrest]

theorem splitOnChar_append (sep : Char) (p q : List Char) (h : sep ∉ p) :
    splitOnChar sep (p ++ sep :: q) = p :: splitOnChar sep q := by
  induction p with
  | nil => simp [splitOnChar]
  | cons c rest ih =>
    simp only [List.mem_cons, not_or] at h
    obtain ⟨hc, hrest⟩ := h
    show splitOnChar sep (c :: (rest ++ sep :: q)) = (c :: rest) :: splitOnChar sep q
    simp only [splitOnChar]
    rw [if_neg (fun hh => hc hh.symm), ih hrest]

theorem getLast?_ne_of_not_mem (l : List Char) (c : Char) (h : c ∉ l) :
    l.getLast? ≠ some c := by
  intro hc
  obtain ⟨hne, heq⟩ := List.mem_getLast?_eq_getLast (Option.mem_def.mpr hc)
  exact h (by rw [heq]; exact List.getLast_mem hne)

theorem mem_dropWhile_or (q : Char → Bool) (l : List Char) (c : Char)
    (h : c ∈ l) : c ∈ l.dropWhile q ∨ q c = true := by
  induction l with
  | nil => cases h
  | cons x xs ih =>
    rw [List.dropWhile_cons]
    by_cases hq : q x = true
    · rw [if_pos hq]
      rcases List.mem_cons.mp h with h1 | h1
      · right
        rw [h1]
        exact hq
      · exact ih h1
    · rw [if_neg hq]
      exact Or.inl h

theorem mem_strip_or (l : List Char) (c : Char) (h : c ∈ l) :
    c ∈ stripPySpace l ∨ isPySpace c = true := by
  unfold stripPySpace
  rcases mem_dropWhile_or isPySpace l c h with h1 | h1
  · rcases mem_dropWhile_or isPySpace (l.dropWhile isPySpace).reverse c
        (List.mem_reverse.mpr h1) with h2 | h2
    · exact Or.inl (List.mem_reverse.mpr h2)
    · exact Or.inr h2
  · exact Or.inr h1

theorem digitsU_chars : ∀ (l ds : List Char), digitsU l = some ds →
    ∀ c ∈ l, isDigitChar c = true ∨ c = '_'
  | [], _, h => by simp [digitsU] at h
  | [c0], ds, h => by
    intro c hc
    simp only [digitsU] at h
    by_cases hd : isDigitChar c0 = true
    · left
      have hcc : c = c0 := by simpa using hc
      rw [hcc]
      exact hd
    · rw [if_neg hd] at h
      exact absurd h (by simp)
  | c0 :: d :: rest, ds, h => by
    intro c hc
    simp only [digitsU] at h
    by_cases hd : isDigitChar c0 = true
    · rw [if_pos hd] at h
      by_cases hu : d = '_'
      · rw [if_pos hu] at h
        obtain ⟨ds', hds', _⟩ := Option.map_eq_some'.mp h
        rcases List.mem_cons.mp hc with h1 | h1
        · left
          rw [h1]
          exact hd
        · rcases List.mem_cons.mp h1 with h2 | h2
          · right
            rw [h2]
            exact hu
          · exact digitsU_chars rest ds' hds' c h2
      · rw [if_neg hu] at h
        obtain ⟨ds', hds', _⟩ := Option.map_eq_some'.mp h
        rcases List.mem_cons.mp hc with h1 | h1
        · left
          rw [h1]
          exact hd
        · exact digitsU_chars (d :: rest) ds' hds' c h1
    · rw [if_neg hd] at h
      exact absurd h (by simp)

theorem pyIntCore_chars (l : List Char) (w : Int) (h : pyIntCore l = some w) :
    ∀ c ∈ l, isDigitChar c = true ∨ c = '_' ∨ c = '-' ∨ c = '+' := by
  cases l with
  | nil => exact absurd h (by simp [pyIntCore])
  | cons c0 rest =>
    simp only [pyIntCore] at h
    intro c hc
    by_cases hcm : c0 = '-'
    · rw [if_pos hcm] at h
      obtain ⟨ds, hds, _⟩ := Option.map_eq_some'.mp h
      rcases List.mem_cons.mp hc with h1 | h1
      · right; right; left
        rw [h1]
        exact hcm
      · rcases digitsU_chars rest ds hds c h1 with h2 | h2
        · exact Or.inl h2
        · exact Or.inr (Or.inl h2)
    · rw [if_neg hcm] at h
      by_cases hcp : c0 = '+'
      · rw [if_pos hcp] at h
        obtain ⟨ds, hds, _⟩ := Option.map_eq_some'.mp h
        rcases List.mem_cons.mp hc with h1 | h1
        · right; right; right
          rw [h1]
          exact hcp
        · rcases digitsU_chars rest ds hds c h1 with h2 | h2
          · exact Or.inl h2
          · exact Or.inr (Or.inl h2)
      · rw [if_neg hcp] at h
        obtain ⟨ds, hds, _⟩ := Option.map_eq_some'.mp h
        rcases digitsU_chars (c0 :: rest) ds hds c hc with h2 | h2
        · exact Or.inl h2
        · exact Or.inr (Or.inl h2)

theorem pyInt_shape (p : List Char) (w : Int) (h : pyInt p = some w) :
    p ≠ [] ∧ (',') ∉ p := by
  constructor
  · intro hp
    rw [hp] at h
    rw [show pyInt [] = none from rfl] at h
    exact Option.noConfusion h
  · intro hmem
    unfold pyInt at h
    rcases mem_strip_or p ',' hmem with h1 | h1
    · rcases pyIntCore_chars _ w h ',' h1 with h2 | h2 | h2 | h2
      · exact absurd h2 (by decide)
      · exact absurd h2 (by decide)
      · exact absurd h2 (by decide)
      · exact absurd h2 (by decide)
    · exact absurd h1 (by decide)

theorem mk_ne_full_max (l : List Char) (hc : (',') ∈ l) :
    ¬(String.mk l = "full" ∨ String.mk l = "max") := by
  intro hor
  rcases hor with h | h
  · have hd : l = ("full").data := congrArg String.data h
    rw [hd] at hc
    exact absurd hc (by decide)
  · have hd : l = ("max").data := congrArg String.data h
    rw [hd] at hc
    exact absurd hc (by decide)

theorem resolveSize_width (p : List Char) (w : Int) (hp : pyInt p = some w) :
    resolveSize (String.mk (p ++ [','])) = some (some w, none) := by
  obtain ⟨hne, hnc⟩ := pyInt_shape p w hp
  unfold resolveSize
  rw [if_neg (mk_ne_full_max _ (List.mem_append.mpr (Or.inr (List.mem_cons_self _ _))))]
  show sizeQuery (p ++ [',']) = some (some w, none)
  unfold sizeQuery
  have hlast : (p ++ [',']).getLast? = some ',' := by
    rw [List.getLast?_append_cons]
    rfl
  rw [if_pos hlast, splitOnChar_append ',' p [] hnc]
  have hfil : (p :: splitOnChar ',' []).filter (fun x => !x.isEmpty) = [p] := by
    cases p with
    | nil => exact absurd rfl hne
    | cons c p' => rfl
  rw [hfil]
  simp only [headQuery]
  rw [hp]
  rfl

theorem resolveSize_height (p : List Char) (hv : Int) (hp : pyInt p = some hv) :
    resolveSize (String.mk (',' :: p)) = some (none, some hv) := by
  obtain ⟨hne, hnc⟩ := pyInt_shape p hv hp
  unfold resolveSize
  rw [if_neg (mk_ne_full_max _ (List.mem_cons_self _ _))]
  show sizeQuery (',' :: p) = some (none, some hv)
  unfold sizeQuery
  have hlast : ¬(',' :: p).getLast? = some ',' := by
    have h1 : (',' :: p).getLast? = p.getLast? :=
      List.getLast?_append_of_ne_nil [','] hne
    rw [h1]
    exact getLast?_ne_of_not_mem p ',' hnc
  rw [if_neg hlast, if_pos (show (',' :: p).head? = some ',' from rfl)]
  have hsplit : splitOnChar ',' (',' :: p) = [] :: splitOnChar ',' p := by
    have h2 := splitOnChar_append ',' [] p (by simp)
    simpa using h2
  rw [hsplit, splitOnChar_not_mem ',' p hnc]
  have hfil : (([] : List Char) :: [p]).filter (fun x => !x.isEmpty) = [p] := by
    cases p with
    | nil => exact absurd rfl hne
    | cons c p' => rfl
  rw [hfil]
  simp only [headQuery]
  rw [hp]
  rfl

theorem resolveSize_both (p q : List Char) (w hv : Int)
    (hp : pyInt p = some w) (hq : pyInt q = some hv) :
    resolveSize (String.mk (p ++ ',' :: q)) = some (some w, some hv) := by
  obtain ⟨hpne, hpnc⟩ := pyInt_shape p w hp
  obtain ⟨hqne, hqnc⟩ := pyInt_shape q hv hq
  unfold resolveSize
  rw [if_neg (mk_ne_full_max _ (List.mem_append.mpr (Or.inr (List.mem_cons_self _ _))))]
  show sizeQuery (p ++ ',' :: q) = some (some w, some hv)
  unfold sizeQuery
  have hlast : ¬(p ++ ',' :: q).getLast? = some ',' := by
    rw [List.getLast?_append_cons]
    have h1 : (',' :: q).getLast? = q.getLast? :=
      List.getLast?_append_of_ne_nil [','] hqne
    rw [h1]
    exact getLast?_ne_of_not_mem q ',' hqnc
  rw [if_neg hlast]
  have hhead : ¬(p ++ ',' :: q).head? = some ',' := by
    cases p with
    | nil => exact absurd rfl hpne
    | cons c p' =>
      intro hh
      have hcc : c = ',' := by simpa using hh
      exact hpnc (by rw [← hcc]; exact List.mem_cons_self _ _)
  rw [if_neg hhead, splitOnChar_append ',' p q hpnc, splitOnChar_not_mem ',' q hqnc]
  have hfil : (p :: [q]).filter (fun x => !x.isEmpty) = [p, q] := by
    cases p with
    | nil => exact absurd rfl hpne
    | cons c p' =>
      cases q with
      | nil => exact absurd rfl hqne
      | cons d q' => rfl
  rw [hfil]
  simp only [pairQuery]
  rw [hp, hq]

/-- C8: size resolution follows the documented grammar: `full` and `max`
carry no resize parameters; `w,` resolves to width only; `,h` to height
only; `w,h` to both, for every parseable numeric component. -/
theorem C8_size_grammar :
    (resolveSize "full" = some (none, none)
      ∧ resolveSize "max" = some (none, none))
    ∧ (∀ p w, pyInt p = some w →
        resolveSize (String.mk (p ++ [','])) = some (some w, none))
    ∧ (∀ p h, pyInt p = some h →
        resolveSize (String.mk (',' :: p)) = some (none, some h))
    ∧ (∀ p q w h, pyInt p = some w → pyInt q = some h →
        resolveSize (String.mk (p ++ ',' :: q)) = some (some w, some h)) :=
  ⟨⟨by decide, by decide⟩, resolveSize_width, resolveSize_height,
    resolveSize_both⟩

/-- Witness for C8 on the spec's example sizes. -/
theorem C8_size_grammar_witness :
    pyInt (("300").toList) = some 300
    ∧ resolveSize "300," = some (some 300, none)
    ∧ resolveSize ",150" = some (none, some 150)
    ∧ resolveSize "120,80" = some (some 120, some 80) := by
  refine ⟨by decide, ?_, ?_, ?_⟩
  · have h := C8_size_grammar.2.1 (("300").toList) 300 (by decide)
    have he : String.mk (("300").toList ++ [',']) = "300," := by decide
    rw [he] at h
    exact h
  · have h := C8_size_grammar.2.2.1 (("150").toList) 150 (by decide)
    have he : String.mk (',' :: ("150").toList) = ",150" := by decide
    rw [he] at h
    exact h
  · have h := C8_size_grammar.2.2.2 (("120").toList) (("80").toList) 120 80
      (by decide) (by decide)
    have he : String.mk (("120").toList ++ ',' :: ("80").toList) = "120,80" := by
      decide
    rw [he] at h
    exact h

end Demetsiiify
